import Mathlib

/-!
Shallow embedding of the `cli` package (reflection-based sub-command
framework): the `application`/`rule` data model, signature validation in
`application.Rule`, and the positional argument binder in the dispatch
function, together with the per-flag usage rendering.
-/

set_option maxHeartbeats 1000000

/-- Go `reflect.Kind` restricted to what the package inspects:
`reflect.String`, `reflect.Int`, `reflect.Slice` (together with its element
type), and a stand-in for every other kind. -/
inductive Kind where
  | string
  | int
  | slice (elem : Kind)
  | other
deriving DecidableEq, Repr

/-- The type of the `Run` method as seen through `reflect.Method.Type`:
`inTypes` lists `In(0) .. In(NumIn()-1)` (index 0 is the receiver, method
expressions take the receiver as the first argument), `outTypes` lists
`Out(0) .. Out(NumOut()-1)`. -/
structure MethodType where
  inTypes : List Kind
  outTypes : List Kind
deriving DecidableEq, Repr

/-- One flag definition on a `flag.FlagSet`: its name, the textual default
value (`flag.Flag.DefValue`) and the help text (`flag.Flag.Usage`). -/
structure FlagSpec where
  name : String
  defValue : String
  usage : String
deriving DecidableEq, Repr

/-- A registrable command (the Go `command` interface plus what reflection
sees of the dynamic type): `run` is the result of `MethodByName("Run")`
(`none` when the dynamic type has no `Run` method), `flags` the flag
definitions its `Flags` hook makes on a fresh FlagSet, and `str` the
`String()` description. -/
structure command where
  run : Option MethodType
  flags : List FlagSpec
  str : String
deriving DecidableEq, Repr

/-- The Go `rule` struct stored in the registry. -/
structure rule where
  command : command
  method : MethodType
  slice : Bool
  name : String
  options : List FlagSpec
  arguments : String
deriving DecidableEq, Repr

/-- The Go `application` struct. The Go `map[string]*rule` is modeled as a
lookup function `String → Option rule`; registration overrides it
pointwise. -/
structure application where
  name : String
  version : String
  rules : String → Option rule

/-- The three registration errors of the package. -/
inductive RuleErr where
  | errRunMissing
  | errRunString
  | errRunReturnValue
deriving DecidableEq, Repr

/-- Observable side effects of a registration call: construction of a fresh
FlagSet and invocation of the command's `Flags` hook. -/
inductive Event where
  | newFlagSet (name : String)
  | flagsInvoked
deriving DecidableEq, Repr

/-- The loop `for i := 1; i < in-1; i++` checking that every non-final
parameter kind is `reflect.String`. The loop's only effect is to return
`errRunString` when some such parameter is not a string, so it is embedded
as a boolean check over the index range. -/
def nonFinalStringsOk (m : MethodType) : Bool :=
  (List.range m.inTypes.length).all fun i =>
    if 1 ≤ i ∧ i < m.inTypes.length - 1 then m.inTypes.getD i Kind.other == Kind.string
    else true

/-- `final.Kind() == reflect.Slice && final.Elem().Kind() == reflect.String`. -/
def finalIsSliceString : Kind → Bool
  | Kind.slice Kind.string => true
  | _ => false

/-- The last parameter may optionally be a string slice; a last parameter
that is neither a string slice nor a string is an error. Returns the
`slice` flag on success. -/
def finalParamSlice (m : MethodType) : Except RuleErr Bool :=
  if 1 < m.inTypes.length then
    let final := m.inTypes.getD (m.inTypes.length - 1) Kind.other
    if finalIsSliceString final then Except.ok true
    else if final ≠ Kind.string then Except.error RuleErr.errRunString
    else Except.ok false
  else Except.ok false

/-- `func (a *application) Rule(command command, name, arguments string) error`.
Returns the Go return value, the application state after the call (Go
mutates `a` in place), and the trace of FlagSet-construction and
Flags-hook events. -/
def application.Rule (a : application) (c : command) (name arguments : String) :
    Option RuleErr × application × List Event :=
  match c.run with
  | none => (some RuleErr.errRunMissing, a, [])
  | some method =>
    if nonFinalStringsOk method then
      match finalParamSlice method with
      | Except.error e => (some e, a, [])
      | Except.ok slice =>
        if 1 ≤ method.outTypes.length ∧ method.outTypes.getD 0 Kind.other ≠ Kind.int then
          (some RuleErr.errRunReturnValue, a, [])
        else
          (none,
           { a with rules := fun k =>
               if k = name then
                 some { command := c, method := method, slice := slice,
                        name := name, options := c.flags, arguments := arguments }
               else a.rules k },
           [Event.newFlagSet name, Event.flagsInvoked])
    else (some RuleErr.errRunString, a, [])

/-- A `reflect.Value` passed to `Func.Call`: the receiver, a string, or a
string slice. -/
inductive Value where
  | recv
  | str (s : String)
  | strList (xs : List String)
deriving DecidableEq, Repr

/-- Final value of `params[i]` after the assignments in the dispatch part of
`Run`; `none` is the reflect zero `Value` (never assigned). Every
assignment writes one index and reads only `args`, so the imperative fills
are translated pointwise; the branches keep the source's order, with the
final-slot assignment overriding the earlier ones. -/
def bindParam (numIn : Nat) (slice : Bool) (args : List String) (i : Nat) : Option Value :=
  let afterRecv : Option Value := if i = 0 then some Value.recv else none
  let afterLoop : Option Value :=
    if 1 ≤ i ∧ i < numIn - 1 then
      some (Value.str (if i < args.length + 1 then args.getD (i - 1) "" else ""))
    else afterRecv
  if i = numIn - 1 then
    if slice then some (Value.strList (args.drop (numIn - 1 - 1)))
    else if 1 < numIn - 1 then
      some (Value.str (if numIn - 1 < args.length + 1 then args.getD (numIn - 1 - 1) "" else ""))
    else afterLoop
  else afterLoop

/-- `params := make([]reflect.Value, rule.method.Type.NumIn())` after all the
assignments of the binding phase. -/
def bindParams (numIn : Nat) (slice : Bool) (args : List String) : List (Option Value) :=
  (List.range numIn).map (bindParam numIn slice args)

/-- `code := 0; if len(rv) > 0 { code = int(rv[0].Int()) }`. -/
def exitCode (rv : List Int) : Int :=
  if 0 < rv.length then rv.getD 0 0 else 0

/-- Binding plus the dynamic `Func.Call` and exit-code computation:
`runImpl` is the handler's `Run` body, mapping the bound values to the
returned values. The result is the value handed to `os.Exit`; `none`
models the panic `reflect.Call` raises on a zero `Value` argument. -/
def dispatch (r : rule) (runImpl : List Value → List Int) (args : List String) : Option Int :=
  let params := bindParams r.method.inTypes.length r.slice args
  if params.all Option.isSome then
    some (exitCode (runImpl (params.filterMap id)))
  else none

/-- `strconv.Atoi` on a 64-bit platform: an optional sign followed by one or
more decimal digits, with the value within the signed 64-bit range;
anything else (including out-of-range numerals) yields an error, here
`none`. -/
def atoi (s : String) : Option Int :=
  let p : Int × List Char :=
    match s.data with
    | '+' :: rest => (1, rest)
    | '-' :: rest => (-1, rest)
    | l => (1, l)
  if p.2.isEmpty then none
  else if p.2.all Char.isDigit then
    let v : Nat := p.2.foldl (fun acc c => acc * 10 + (c.toNat - 48)) 0
    let iv : Int := p.1 * (v : Int)
    if -(2 ^ 63) ≤ iv ∧ iv ≤ 2 ^ 63 - 1 then some iv else none
  else none

/-- The per-flag default-value rendering in `printUsage`. -/
def flagValueText (defValue : String) : String :=
  if defValue = "" then "<value>"
  else if defValue = "false" then ""
  else if (atoi defValue).isSome then "<n>"
  else "\"" ++ defValue ++ "\""

/-- The `-name` / `-name=value` column of a flag line in `printUsage`. -/
def flagOptionText (f : FlagSpec) : String :=
  let value := flagValueText f.defValue
  if value ≠ "" then "-" ++ f.name ++ "=" ++ value else "-" ++ f.name

/-! Concrete fixtures used by witnesses and counterexamples. -/

/-- An application with an empty registry. -/
def app0 : application :=
  { name := "myapp", version := "0.0.1", rules := fun _ => none }

/-- A handler without a `Run` method. -/
def cNoRun : command := { run := none, flags := [], str := "missing run method" }

/-- `Run(x string)`: one string parameter besides the receiver. -/
def mOne : MethodType := { inTypes := [Kind.other, Kind.string], outTypes := [] }

/-- Handler with entry point `Run(x string)`. -/
def cOne : command := { run := some mOne, flags := [], str := "one string arg" }

/-- The rule `application.Rule` stores for `cOne`. -/
def ruleOne : rule :=
  { command := cOne, method := mOne, slice := false, name := "one",
    options := [], arguments := "<arg1>" }

theorem cOne_registers :
    (application.Rule app0 cOne "one" "<arg1>").1 = none := by decide

/-! Shared helper lemmas about registration. -/

/-- Characterization of a successful registration: the entry point exists,
all signature checks pass, the registry gains the new rule under `name`,
and exactly one FlagSet is constructed and populated. -/
theorem Rule_success_spec (a : application) (c : command) (name arguments : String)
    (a2 : application) (ev : List Event)
    (h : application.Rule a c name arguments = (none, a2, ev)) :
    ∃ m slice, c.run = some m ∧ nonFinalStringsOk m = true ∧
      finalParamSlice m = Except.ok slice ∧
      ¬(1 ≤ m.outTypes.length ∧ m.outTypes.getD 0 Kind.other ≠ Kind.int) ∧
      a2 = { a with rules := fun k =>
               if k = name then
                 some { command := c, method := m, slice := slice,
                        name := name, options := c.flags, arguments := arguments }
               else a.rules k } ∧
      ev = [Event.newFlagSet name, Event.flagsInvoked] := by
  cases hrun : c.run with
  | none => simp only [application.Rule, hrun] at h; simp at h
  | some m =>
    simp only [application.Rule, hrun] at h
    by_cases hok : nonFinalStringsOk m = true
    · rw [if_pos hok] at h
      cases hfp : finalParamSlice m with
      | error e => simp only [hfp] at h; simp at h
      | ok slice =>
        simp only [hfp] at h
        by_cases hout : 1 ≤ m.outTypes.length ∧ m.outTypes.getD 0 Kind.other ≠ Kind.int
        · rw [if_pos hout] at h; simp at h
        · rw [if_neg hout] at h
          have h2 := congrArg (fun t => t.2.1) h
          have h3 := congrArg (fun t => t.2.2) h
          exact ⟨m, slice, rfl, hok, hfp, hout, h2.symm, h3.symm⟩
    · rw [if_neg hok] at h; simp at h

/-- Element lookup in the bound parameter list is the pointwise binder. -/
theorem bindParams_getD (numIn : Nat) (slice : Bool) (args : List String) (i : Nat)
    (h : i < numIn) :
    (bindParams numIn slice args).getD i none = bindParam numIn slice args i := by
  simp [bindParams, List.getD_eq_getElem?_getD, List.getElem?_map, List.getElem?_range, h]

/-! Claim theorems. -/

/-- Claim C1 (code bug): a handler whose entry point has exactly one
parameter besides the receiver, of type string, registers successfully,
yet the binder never assigns that parameter (the final-slot branch
requires an index greater than 1), leaving the reflect zero `Value`, so
`Func.Call` panics instead of proceeding — for any token list, here shown
for no tokens and for one token. -/
theorem C1_single_param_binding_gap :
    (application.Rule app0 cOne "one" "<arg1>").1 = none ∧
    ((application.Rule app0 cOne "one" "<arg1>").2.1.rules "one") = some ruleOne ∧
    bindParams 2 false [] = [some Value.recv, none] ∧
    bindParams 2 false ["a1"] = [some Value.recv, none] ∧
    (∀ impl, dispatch ruleOne impl ["a1"] = none) := by
  refine ⟨by decide, by decide, by decide, by decide, fun impl => rfl⟩

/-- Claim C2: a handler that does not expose a `Run` method fails
registration with `errRunMissing`, whatever its other properties — the
missing-entry-point check precedes every other validation. -/
theorem C2_missing_run_fails (a : application) (c : command) (n args : String)
    (h : c.run = none) :
    (application.Rule a c n args).1 = some RuleErr.errRunMissing := by
  unfold application.Rule
  rw [h]

/-- Claim C2 witness at a concrete handler. -/
theorem C2_missing_run_fails_witness :
    (application.Rule app0 cNoRun "missing" "").1 = some RuleErr.errRunMissing :=
  C2_missing_run_fails app0 cNoRun "missing" "" rfl

/-- Claim C3: a non-final parameter (any index strictly between the receiver
and the last parameter) whose kind is not string makes registration fail
with `errRunString`. -/
theorem C3_nonfinal_nonstring_fails (a : application) (c : command) (n args : String)
    (m : MethodType) (i : Nat) (hr : c.run = some m)
    (h1 : 1 ≤ i) (h2 : i < m.inTypes.length - 1)
    (h3 : m.inTypes.getD i Kind.other ≠ Kind.string) :
    (application.Rule a c n args).1 = some RuleErr.errRunString := by
  have hfalse : nonFinalStringsOk m = false := by
    rw [Bool.eq_false_iff]
    intro hall
    have hmem : i ∈ List.range m.inTypes.length :=
      List.mem_range.mpr (lt_of_lt_of_le h2 (Nat.sub_le _ _))
    have hp := List.all_eq_true.mp hall i hmem
    rw [if_pos ⟨h1, h2⟩] at hp
    exact h3 (by simpa using hp)
  simp only [application.Rule, hr]
  rw [if_neg (by simp [hfalse])]

/-- Handler with entry point `Run(n int, s string)`: a non-final non-string
parameter. -/
def cNonFinal : command :=
  { run := some { inTypes := [Kind.other, Kind.int, Kind.string], outTypes := [] },
    flags := [], str := "invalid param type" }

/-- Claim C3 witness: `Run(n int, s string)` is rejected with `errRunString`. -/
theorem C3_nonfinal_nonstring_fails_witness :
    (application.Rule app0 cNonFinal "string" "").1 = some RuleErr.errRunString :=
  C3_nonfinal_nonstring_fails app0 cNonFinal "string" ""
    { inTypes := [Kind.other, Kind.int, Kind.string], outTypes := [] } 1
    rfl (by decide) (by decide) (by decide)

/-- `finalIsSliceString` holds exactly for `[]string`. -/
theorem finalIsSliceString_eq_true (k : Kind) :
    finalIsSliceString k = true ↔ k = Kind.slice Kind.string := by
  cases k with
  | slice e => cases e <;> simp [finalIsSliceString]
  | string => simp [finalIsSliceString]
  | int => simp [finalIsSliceString]
  | other => simp [finalIsSliceString]

/-- Claim C4: when the entry point has more than one input, a last parameter
that is neither a string nor a string slice makes registration fail with
`errRunString`; on success the stored rule's `slice` field records exactly
whether the last parameter is the variadic `[]string` form (the field is
written once at registration and dispatch only reads it). -/
theorem C4_final_param_check (a : application) (c : command) (n args : String)
    (m : MethodType) (fin : Kind) (hr : c.run = some m)
    (hn : 1 < m.inTypes.length)
    (hfin : m.inTypes.getD (m.inTypes.length - 1) Kind.other = fin) :
    (fin ≠ Kind.string → fin ≠ Kind.slice Kind.string →
      (application.Rule a c n args).1 = some RuleErr.errRunString) ∧
    (∀ a2 ev, application.Rule a c n args = (none, a2, ev) →
      ∃ r, a2.rules n = some r ∧ r.slice = finalIsSliceString fin ∧ r.command = c) := by
  constructor
  · intro hs hss
    have hsl : finalIsSliceString fin = false := by
      rw [Bool.eq_false_iff]
      intro ht
      exact hss ((finalIsSliceString_eq_true fin).mp ht)
    by_cases hok : nonFinalStringsOk m = true
    · have hfp : finalParamSlice m = Except.error RuleErr.errRunString := by
        simp only [finalParamSlice, hfin]
        rw [if_pos hn, hsl]
        simp [hs]
      simp only [application.Rule, hr]
      rw [if_pos hok]
      simp only [hfp]
    · simp only [application.Rule, hr]
      rw [if_neg hok]
  · intro a2 ev h
    obtain ⟨m', slice, hrun', hok, hfp, hout, ha2, hev⟩ :=
      Rule_success_spec a c n args a2 ev h
    have hm : m' = m := Option.some.inj (hrun'.symm.trans hr)
    subst hm
    have hslice : slice = finalIsSliceString fin := by
      simp only [finalParamSlice, hfin] at hfp
      rw [if_pos hn] at hfp
      by_cases hslc : finalIsSliceString fin = true
      · rw [if_pos hslc] at hfp
        cases hfp
        exact hslc.symm
      · rw [if_neg hslc] at hfp
        rw [Bool.not_eq_true] at hslc
        by_cases hfs : fin = Kind.string
        · rw [if_neg (by simp [hfs])] at hfp
          cases hfp
          exact hslc.symm
        · rw [if_pos hfs] at hfp
          cases hfp
    subst ha2
    exact ⟨{ command := c, method := m', slice := slice, name := n,
             options := c.flags, arguments := args },
           by simp, hslice, rfl⟩

/-- Handler with entry point `Run(s string, xs []int)`: a final parameter
that is neither a string nor a string slice. -/
def cBadFinal : command :=
  { run := some { inTypes := [Kind.other, Kind.string, Kind.slice Kind.int], outTypes := [] },
    flags := [], str := "bad final param" }

/-- The `add` example from the package documentation:
`Run(key, username string, extra []string) int` with three flags. -/
def mAdd : MethodType :=
  { inTypes := [Kind.other, Kind.string, Kind.string, Kind.slice Kind.string],
    outTypes := [Kind.int] }

/-- Handler for the `add` example. -/
def cAdd : command :=
  { run := some mAdd,
    flags := [{ name := "show-extra", defValue := "false", usage := "Print extra arguments." },
              { name := "example", defValue := "", usage := "An example string option." },
              { name := "number", defValue := "0", usage := "An example int option." }],
    str := "Add record key with username." }

/-- Claim C4 witness: `Run(s string, xs []int)` is rejected with
`errRunString`, and the registered `add` rule records `slice = true` for
its `[]string` final parameter. -/
theorem C4_final_param_check_witness :
    (application.Rule app0 cBadFinal "bf" "").1 = some RuleErr.errRunString ∧
    (∃ r, ((application.Rule app0 cAdd "add" "<key> <username> [<extra>]").2.1).rules "add" =
        some r ∧ r.slice = finalIsSliceString (Kind.slice Kind.string) ∧ r.command = cAdd) := by
  constructor
  · exact (C4_final_param_check app0 cBadFinal "bf" ""
      { inTypes := [Kind.other, Kind.string, Kind.slice Kind.int], outTypes := [] }
      (Kind.slice Kind.int) rfl (by decide) rfl).1 (by decide) (by decide)
  · exact (C4_final_param_check app0 cAdd "add" "<key> <username> [<extra>]" mAdd
      (Kind.slice Kind.string) rfl (by decide) rfl).2 _ _ rfl

/-- Handler with entry point `Run(n int) string`: a non-string parameter and
a non-int first result. -/
def cBadParam : command :=
  { run := some { inTypes := [Kind.other, Kind.int], outTypes := [Kind.string] },
    flags := [], str := "bad param and return" }

/-- Claim C5 counterexample: the handler with entry point `Run(n int) string`
has a non-integer first result, yet registration returns `errRunString`
(the parameter check fires first), not `errRunReturnValue` as the claim,
read unconditionally, requires. -/
theorem C5_counterexample :
    (1 ≤ ({ inTypes := [Kind.other, Kind.int], outTypes := [Kind.string] }
        : MethodType).outTypes.length ∧
      ({ inTypes := [Kind.other, Kind.int], outTypes := [Kind.string] }
        : MethodType).outTypes.getD 0 Kind.other ≠ Kind.int) ∧
    (application.Rule app0 cBadParam "badparam" "").1 = some RuleErr.errRunString ∧
    (application.Rule app0 cBadParam "badparam" "").1 ≠ some RuleErr.errRunReturnValue := by
  exact ⟨by decide, by decide, by decide⟩

/-- Claim C5 (amended): provided the parameter checks pass, an entry point
producing a non-integer first result fails registration with
`errRunReturnValue`; and results after the first are never examined — the
registration outcome is unchanged under any replacement of the result
tail. -/
theorem C5_first_result_check (a : application) (c : command) (n args : String)
    (m : MethodType) (b : Bool)
    (hr : c.run = some m) (hp : nonFinalStringsOk m = true)
    (hf : finalParamSlice m = Except.ok b)
    (ho : 1 ≤ m.outTypes.length) (h0 : m.outTypes.getD 0 Kind.other ≠ Kind.int) :
    (application.Rule a c n args).1 = some RuleErr.errRunReturnValue ∧
    ∀ (o : Kind) (t t' : List Kind),
      (application.Rule a { c with run := some { m with outTypes := o :: t } } n args).1 =
      (application.Rule a { c with run := some { m with outTypes := o :: t' } } n args).1 := by
  constructor
  · simp only [application.Rule, hr]
    rw [if_pos hp]
    simp only [hf]
    rw [if_pos ⟨ho, h0⟩]
  · intro o t t'
    have hp1 : nonFinalStringsOk { m with outTypes := o :: t } = true := hp
    have hp2 : nonFinalStringsOk { m with outTypes := o :: t' } = true := hp
    have hf1 : finalParamSlice { m with outTypes := o :: t } = Except.ok b := hf
    have hf2 : finalParamSlice { m with outTypes := o :: t' } = Except.ok b := hf
    simp only [application.Rule, hp1, hp2, hf1, hf2, if_true]
    by_cases ho2 : o = Kind.int <;> simp [ho2]

/-- Handler with entry point `Run() string`: only the first result is
examined and it is not an int. -/
def cBadReturn : command :=
  { run := some { inTypes := [Kind.other], outTypes := [Kind.string] },
    flags := [], str := "invalid return value" }

/-- Claim C5 witness: `Run() string` is rejected with `errRunReturnValue`. -/
theorem C5_first_result_check_witness :
    (application.Rule app0 cBadReturn "ret" "").1 = some RuleErr.errRunReturnValue :=
  (C5_first_result_check app0 cBadReturn "ret" ""
    { inTypes := [Kind.other], outTypes := [Kind.string] } false
    rfl (by decide) rfl (by decide) (by decide)).1

/-- Claim C6: for a rule with `N` non-final slots and a variadic final slot
(receiver plus `N + 1` declared parameters) and at least `N` tokens, the
final slot receives exactly the tokens from index `N` onward in order,
and each non-final slot `i` receives token `i - 1`. -/
theorem C6_variadic_absorption (N : Nat) (args : List String) (h : N ≤ args.length) :
    (bindParams (N + 2) true args).getD (N + 1) none =
      some (Value.strList (args.drop N)) ∧
    ∀ i, 1 ≤ i → i ≤ N →
      (bindParams (N + 2) true args).getD i none =
        some (Value.str (args.getD (i - 1) "")) := by
  constructor
  · rw [bindParams_getD _ _ _ _ (by omega)]
    simp only [bindParam]
    rw [if_pos (show N + 1 = N + 2 - 1 by omega)]
    rw [if_pos trivial]
    rw [show N + 2 - 1 - 1 = N by omega]
  · intro i h1 h2
    rw [bindParams_getD _ _ _ _ (by omega)]
    simp only [bindParam]
    rw [if_neg (show ¬i = N + 2 - 1 by omega)]
    rw [if_pos (show 1 ≤ i ∧ i < N + 2 - 1 by omega)]
    rw [if_pos (show i < args.length + 1 by omega)]

/-- Claim C6 witness: one non-final slot, three tokens — the variadic slot
gets tokens 1 and 2, the non-final slot gets token 0. -/
theorem C6_variadic_absorption_witness :
    (bindParams 3 true ["a", "b", "c"]).getD 2 none =
      some (Value.strList ["b", "c"]) ∧
    (bindParams 3 true ["a", "b", "c"]).getD 1 none = some (Value.str "a") := by
  have h := C6_variadic_absorption 1 ["a", "b", "c"] (by decide)
  exact ⟨h.1, h.2 1 (by decide) (by decide)⟩

/-- The rule the registration of `cAdd` stores. -/
def ruleAdd : rule :=
  { command := cAdd, method := mAdd, slice := true, name := "add",
    options := cAdd.flags, arguments := "<key> <username> [<extra>]" }

/-- Claim C7: when binding assigns every parameter, dispatch invokes the
entry point and hands `os.Exit` the first returned value when there is
one, and 0 when the entry point returns nothing. -/
theorem C7_exit_code (r : rule) (impl : List Value → List Int) (args : List String)
    (h : (bindParams r.method.inTypes.length r.slice args).all Option.isSome = true) :
    (∀ c rest,
        impl ((bindParams r.method.inTypes.length r.slice args).filterMap id) = c :: rest →
        dispatch r impl args = some c) ∧
    (impl ((bindParams r.method.inTypes.length r.slice args).filterMap id) = [] →
        dispatch r impl args = some 0) := by
  constructor
  · intro c rest hc
    simp only [dispatch]
    rw [if_pos h, hc]
    simp [exitCode]
  · intro hc
    simp only [dispatch]
    rw [if_pos h, hc]
    simp [exitCode]

/-- Claim C7 witness: dispatching the `add` rule on four tokens with a body
returning `[2]` exits with code 2. -/
theorem C7_exit_code_witness :
    dispatch ruleAdd (fun _ => [2]) ["bob", "smith", "x", "y"] = some 2 :=
  (C7_exit_code ruleAdd (fun _ => [2]) ["bob", "smith", "x", "y"] (by decide)).1 2 [] rfl

/-- Claim C8: after two successful registrations under the same name, lookup
yields the rule built from the second handler, and each registration
leaves every other name's entry unchanged. -/
theorem C8_last_registration_wins (a : application) (c1 c2 : command)
    (n u1 u2 : String) (a1 a2 : application) (e1 e2 : List Event)
    (h1 : application.Rule a c1 n u1 = (none, a1, e1))
    (h2 : application.Rule a1 c2 n u2 = (none, a2, e2)) :
    (∃ r, a2.rules n = some r ∧ r.command = c2 ∧ r.name = n ∧
      r.options = c2.flags ∧ r.arguments = u2) ∧
    (∀ k, k ≠ n → a2.rules k = a1.rules k ∧ a1.rules k = a.rules k) := by
  obtain ⟨m1, s1, -, -, -, -, ha1, -⟩ := Rule_success_spec a c1 n u1 a1 e1 h1
  obtain ⟨m2, s2, -, -, -, -, ha2, -⟩ := Rule_success_spec a1 c2 n u2 a2 e2 h2
  subst ha1
  subst ha2
  constructor
  · exact ⟨{ command := c2, method := m2, slice := s2, name := n,
             options := c2.flags, arguments := u2 }, by simp, rfl, rfl, rfl, rfl⟩
  · intro k hk
    exact ⟨by simp [hk], by simp [hk]⟩

/-- Handler `Run()` used as the first registration under a shared name. -/
def cHello : command :=
  { run := some { inTypes := [Kind.other], outTypes := [] }, flags := [], str := "hello v1" }

/-- Handler `Run() int` used as the overwriting registration. -/
def cHello2 : command :=
  { run := some { inTypes := [Kind.other], outTypes := [Kind.int] },
    flags := [], str := "hello v2" }

/-- Claim C8 witness: registering `cHello` then `cHello2` under "hello"
stores the rule built from `cHello2`, and "version" is untouched. -/
theorem C8_last_registration_wins_witness :
    (∃ r, ((application.Rule (application.Rule app0 cHello "hello" "").2.1
        cHello2 "hello" "").2.1).rules "hello" = some r ∧ r.command = cHello2 ∧
        r.name = "hello" ∧ r.options = cHello2.flags ∧ r.arguments = "") ∧
    ((application.Rule (application.Rule app0 cHello "hello" "").2.1
        cHello2 "hello" "").2.1).rules "version" =
      ((application.Rule app0 cHello "hello" "").2.1).rules "version" := by
  have h := C8_last_registration_wins app0 cHello cHello2 "hello" "" ""
    (application.Rule app0 cHello "hello" "").2.1
    (application.Rule (application.Rule app0 cHello "hello" "").2.1 cHello2 "hello" "").2.1
    (application.Rule app0 cHello "hello" "").2.2
    (application.Rule (application.Rule app0 cHello "hello" "").2.1 cHello2 "hello" "").2.2
    rfl rfl
  exact ⟨h.1, (h.2 "version" (by decide)).1⟩

/-- Flag declared as `flags.Bool("verbose", true, "Verbose output.")`: its
default value renders as the text "true". -/
def boolTrueFlag : FlagSpec :=
  { name := "verbose", defValue := "true", usage := "Verbose output." }

/-- Claim C9 counterexample: a boolean flag whose default is `true` does not
render as the bare `-verbose` the claim requires for boolean flags; the
default text "true" is neither "false" nor empty nor numeric, so it is
rendered as a quoted literal. -/
theorem C9_counterexample :
    flagOptionText boolTrueFlag = "-verbose=\"true\"" ∧
    flagOptionText boolTrueFlag ≠ "-verbose" := by
  exact ⟨by decide, by decide⟩

/-- Claim C9 (amended): the usage placeholder is chosen from the default
value's text, not the flag's kind: empty text gives `<value>`; the literal
text "false" (the rendering of an unset boolean default) suppresses the
placeholder, leaving the bare `-name`; text parsing as an integer gives
`<n>`; any other text is rendered as the quoted literal default. -/
theorem C9_placeholder_by_default_text (f : FlagSpec) :
    (f.defValue = "" → flagOptionText f = "-" ++ f.name ++ "=" ++ "<value>") ∧
    (f.defValue = "false" → flagOptionText f = "-" ++ f.name) ∧
    (f.defValue ≠ "" → f.defValue ≠ "false" → (atoi f.defValue).isSome = true →
      flagOptionText f = "-" ++ f.name ++ "=" ++ "<n>") ∧
    (f.defValue ≠ "" → f.defValue ≠ "false" → (atoi f.defValue).isSome = false →
      flagOptionText f = "-" ++ f.name ++ "=" ++ ("\"" ++ f.defValue ++ "\"")) := by
  refine ⟨?_, ?_, ?_, ?_⟩
  · intro h
    have hv : flagValueText f.defValue = "<value>" := by rw [h]; rfl
    simp only [flagOptionText, hv]
    rw [if_pos (by decide)]
  · intro h
    have hv : flagValueText f.defValue = "" := by rw [h]; rfl
    simp only [flagOptionText, hv]
    rw [if_neg (by decide)]
  · intro h1 h2 h3
    have hv : flagValueText f.defValue = "<n>" := by
      simp only [flagValueText]
      rw [if_neg h1, if_neg h2, if_pos h3]
    simp only [flagOptionText, hv]
    rw [if_pos (by decide)]
  · intro h1 h2 h3
    have hv : flagValueText f.defValue = "\"" ++ f.defValue ++ "\"" := by
      simp only [flagValueText]
      rw [if_neg h1, if_neg h2, if_neg (by simp [h3])]
    simp only [flagOptionText, hv]
    rw [if_pos (by
      intro heq
      have hlen := congrArg String.length heq
      rw [String.length_append, String.length_append] at hlen
      rw [show ("\"" : String).length = 1 from rfl,
          show ("" : String).length = 0 from rfl] at hlen
      omega)]

/-- Claim C9 witness: the flag `-number` with default "0" renders with the
numeric placeholder. -/
theorem C9_placeholder_by_default_text_witness :
    flagOptionText { name := "number", defValue := "0", usage := "An example int option." } =
      "-" ++ "number" ++ "=" ++ "<n>" :=
  (C9_placeholder_by_default_text
    { name := "number", defValue := "0", usage := "An example int option." }).2.2.1
    (by decide) (by decide) (by decide)

/-- Claim C10: a failed registration is atomic — the application, and with it
the rule mapping, is unchanged, and no FlagSet is constructed and the
Flags hook is never invoked (the event trace is empty). -/
theorem C10_failed_registration_atomic (a : application) (c : command) (n args : String)
    (e : RuleErr) (h : (application.Rule a c n args).1 = some e) :
    (application.Rule a c n args).2.1 = a ∧
    (application.Rule a c n args).2.2 = ([] : List Event) := by
  cases hrun : c.run with
  | none => simp only [application.Rule, hrun]; constructor <;> trivial
  | some m =>
    by_cases hok : nonFinalStringsOk m = true
    · cases hfp : finalParamSlice m with
      | error e2 =>
        simp only [application.Rule, hrun]
        rw [if_pos hok]
        simp only [hfp]
        constructor <;> trivial
      | ok slice =>
        by_cases hout : 1 ≤ m.outTypes.length ∧ m.outTypes.getD 0 Kind.other ≠ Kind.int
        · simp only [application.Rule, hrun]
          rw [if_pos hok]
          simp only [hfp]
          rw [if_pos hout]
          constructor <;> trivial
        · simp only [application.Rule, hrun] at h
          rw [if_pos hok] at h
          simp only [hfp] at h
          rw [if_neg hout] at h
          simp at h
    · simp only [application.Rule, hrun]
      rw [if_neg hok]
      constructor <;> trivial

/-- Claim C10 witness: the failed registration of a handler without `Run`
leaves the application untouched and produces no events. -/
theorem C10_failed_registration_atomic_witness :
    (application.Rule app0 cNoRun "missing2" "").2.1 = app0 ∧
    (application.Rule app0 cNoRun "missing2" "").2.2 = ([] : List Event) :=
  C10_failed_registration_atomic app0 cNoRun "missing2" "" RuleErr.errRunMissing rfl
